import Mathlib

/-!
Shallow embedding of bs83bdis.py, a Holtek BS83B08A-3 binary code
disassembler.  Machine words are modelled as `Nat` with explicit bit masks;
Python dictionaries become association lists; code that can raise returns
`Except String`.  Definitions follow the Python source function by function.
-/

namespace Bs83bdis

/-- `CODE_ADDRESS_START` from the source. -/
def CODE_ADDRESS_START : Nat := 0x0000

/-- `CODE_ADDRESS_END` from the source. -/
def CODE_ADDRESS_END : Nat := 0x07FF

/-- `CODE_FILE_MAX_SIZE` from the source. -/
def CODE_FILE_MAX_SIZE : Nat := 0x1000

/-- The `Format` enumeration from the source. -/
inductive Format where
  | SPECIAL
  | M2A
  | A2M
  | LITERAL
  | ADDRESS
  | BIT
  | MEMORY
  | INVALID
  deriving DecidableEq, Repr, BEq

/-- Python `dict.get(key, None)` on an association list (keys are unique in
every table this program builds, so first-match lookup models a dict). -/
def dictGet {κ α : Type} [DecidableEq κ] (key : κ) : List (κ × α) → Option α
  | [] => none
  | (k, v) :: rest => if key = k then some v else dictGet key rest

/-- One digit as the character Python `%X` / `bin` produce (uppercase). -/
def digitChar (n : Nat) : Char :=
  if n < 10 then Char.ofNat (48 + n) else Char.ofNat (55 + n)

/-- Digits of `n` in the given base, most significant first; fuel-driven so
that the kernel can evaluate it (`fuel = n + 1` always suffices). -/
def digitsAux (base : Nat) : Nat → Nat → List Char
  | 0, _ => []
  | fuel + 1, n =>
      if n < base then [digitChar n]
      else digitsAux base fuel (n / base) ++ [digitChar (n % base)]

/-- Left-pad a digit string with zeros up to the given width, as Python
width-format and `zfill` do. -/
def zeroPad (width : Nat) (s : List Char) : List Char :=
  List.replicate (width - s.length) '0' ++ s

/-- Python `%0<width>X` formatting of a natural number. -/
def pyHexPad (width n : Nat) : String :=
  String.mk (zeroPad width (digitsAux 16 (n + 1) n))

/-- Python `bin(n)[2:].zfill(width)` formatting of a natural number. -/
def pyBinPad (width n : Nat) : String :=
  String.mk (zeroPad width (digitsAux 2 (n + 1) n))

/-- Python `%d` formatting of a natural number. -/
def pyDec (n : Nat) : String :=
  String.mk (digitsAux 10 (n + 1) n)

/-- The sixteen uppercase hexadecimal digit characters. -/
def hexDigitChars : List Char :=
  "0123456789ABCDEF".data

/-- Characters Python `str.strip` removes. -/
def isPySpace (c : Char) : Bool :=
  c = ' ' || c = '\t' || c = '\n' || c = '\r' ||
    c = Char.ofNat 11 || c = Char.ofNat 12

/-- Python `str.strip()`: drop whitespace from both ends. -/
def pyStrip (s : String) : String :=
  String.mk (((s.data.dropWhile isPySpace).reverse.dropWhile isPySpace).reverse)

/-- The decoded view of one word, mirroring class `Instruction`.  Operand
slots start as Python `None`, hence `Option Nat`. -/
structure Instruction where
  address : Nat
  word : Nat
  name : Option String
  type : Format
  first : Option Nat
  second : Option Nat
  deriving DecidableEq, Repr

/-- `Instruction.get_data_address`: a 7-bit field plus a high-bank flag in
bit 14. -/
def getDataAddress (word : Nat) : Nat :=
  (word &&& 0x7F) + (if word &&& (1 <<< 14) ≠ 0 then 0x80 else 0)

/-- `Instruction.get_bit`: the 3-bit index in bits 7..9. -/
def getBit (word : Nat) : Nat :=
  (word >>> 7) &&& 7

/-- The per-format operand assignments of `Instruction.__init__`
(`self.first`, `self.second`), starting from the `None, None` the
constructor writes first. -/
def instructionOperands (opcodeType : Format) (word : Nat) :
    Option Nat × Option Nat :=
  match opcodeType with
  | Format.SPECIAL => (none, none)
  | Format.M2A => (some (getDataAddress word), none)
  | Format.A2M => (some (getDataAddress word), none)
  | Format.LITERAL => (some (word &&& 0xFF), none)
  | Format.ADDRESS => (some (word &&& 0x7FF), none)
  | Format.BIT => (some (getDataAddress word), some (getBit word))
  | Format.MEMORY => (some (getDataAddress word), none)
  | Format.INVALID => (none, none)

/-- The `self.name` assignment of `Instruction.__init__`: `None` stays
`None`, a falsy (empty) string stays `None`, anything else is stripped. -/
def strippedName (opcodeName : Option String) : Option String :=
  match opcodeName with
  | some s => if s = "" then none else some (pyStrip s)
  | none => none

/-- `Instruction.__init__`: validates the address range, fills the operand
slots according to the format, strips the mnemonic, and rejects a
non-`INVALID` format whose mnemonic is missing or falsy. -/
def mkInstruction (address : Nat) (opcodeName : Option String)
    (opcodeType : Format) (word : Nat) : Except String Instruction :=
  if address < CODE_ADDRESS_START ∨ CODE_ADDRESS_END < address then
    Except.error ("Address 0x" ++ pyHexPad 4 address ++ " out of range")
  else if opcodeType ≠ Format.INVALID ∧
      (strippedName opcodeName = none ∨
        strippedName opcodeName = some "") then
    Except.error "Invalid or missing opcode name"
  else
    Except.ok
      { address := address, word := word, name := strippedName opcodeName,
        type := opcodeType,
        first := (instructionOperands opcodeType word).1,
        second := (instructionOperands opcodeType word).2 }

/-- `_MEMORY_MAP`: Python `None` entries become `none`. -/
def memoryMap : List (Option String) := [
  -- 00H
  some "IAR0", some "MP0", some "IAR1", some "MP1", some "BP", some "ACC",
  some "PCL", some "TBLP", some "TBLH",
  some "TBHP", some "STATUS", some "SMOD", some "CTRL", some "INTEG",
  some "INTC0", some "INTC1",
  -- 10H
  none, none, none, some "LVRC", some "PA", some "PAC", some "PAPU",
  some "PAWU", none, none,
  some "WDTC", some "TBC", some "TMR", some "TMRC", some "EEA", some "EED",
  some "PB",
  -- 20H
  some "PBC", some "PBPU",
  some "I2CTOC", some "SIMC0", some "SIMC1", some "SIMD", some "SIMC2",
  none, none, none, none,
  none, none, none, none, none,
  -- 30H
  none, none, none, none, none, none, none, none, none, none, none, none,
  none, none, none, none,
  -- 40H
  none, none, none, some "TKTMR", some "TKC0", some "TK16DL", some "TK16DH",
  some "TKC1",
  some "TKM016DL", some "TKM016DH", some "TKM0ROL", some "TKM0ROH",
  some "TKM0C0", some "TKM0C1",
  some "TKM116DL", some "TKM116DH",
  -- 50H
  some "TKM1ROL", some "TKM1ROH", some "TKM1C0", some "TKM1C1", none, none,
  none, none,
  none, none, none, none, none, none, none, none
]

def SPECIAL_MASK : Nat := 0b1111111111111000
def SPECIAL_MARK : Nat := 0b0000000000000000
def SPECIAL_LIST : Nat := 0b0000000000000111
def SPECIAL_OPCODES : List (Nat × String) := [
  (0b0000000000000000, "NOP"),
  (0b0000000000000001, "CLR WDT1"),
  (0b0000000000000010, "HALT"),
  (0b0000000000000011, "RET"),
  (0b0000000000000100, "RETI"),
  (0b0000000000000101, "CLR WDT2")
]

def BIT_MASK : Nat := 0b1011000000000000
def BIT_MARK : Nat := 0b0011000000000000
def BIT_LIST : Nat := 0b0011110000000000
def BIT_OPCODES : List (Nat × String) := [
  (0b0011000000000000, "SET"),
  (0b0011010000000000, "CLR"),
  (0b0011100000000000, "SNZ"),
  (0b0011110000000000, "SZ")
]

def ADDRESS_MASK : Nat := 0b1111000000000000
def ADDRESS_MARK : Nat := 0b0010000000000000
def ADDRESS_LIST : Nat := 0b1111100000000000
def ADDRESS_OPCODES : List (Nat × String) := [
  (0b0010000000000000, "CALL"),
  (0b0010100000000000, "JMP")
]

def LITERAL_MASK : Nat := 0b1000100000000000
def LITERAL_MARK : Nat := 0b0000100000000000
def LITERAL_LIST : Nat := 0b0000111100000000
def LITERAL_OPCODES : List (Nat × String) := [
  (0b0000100100000000, "RET"),
  (0b0000101000000000, "SUB"),
  (0b0000101100000000, "ADD"),
  (0b0000110000000000, "XOR"),
  (0b0000110100000000, "OR"),
  (0b0000111000000000, "AND"),
  (0b0000111100000000, "MOV")
]

def M2A_MASK : Nat := 0b1001111110000000
def M2A_MARK : Nat := 0b0000000010000000
def M2A_LIST : Nat := 0b0001111110000000
def M2A_OPCODES : List (Nat × String) := [
  (0b0000000010000000, "MOV")
]

def OTHER_OPCODES_MASK : Nat := 0b1001111110000000
def OTHER_OPCODES : List (Nat × (Format × String)) := [
  (0b0000000010000000, (Format.M2A, "MOV")),
  (0b0000000100000000, (Format.MEMORY, "CPLA")),
  (0b0000000110000000, (Format.MEMORY, "CPL")),
  (0b0000001000000000, (Format.A2M, "SUB")),
  (0b0000001010000000, (Format.A2M, "SUBM")),
  (0b0000001100000000, (Format.A2M, "ADD")),
  (0b0000001110000000, (Format.A2M, "ADDM")),
  (0b0000010000000000, (Format.A2M, "XOR")),
  (0b0000010010000000, (Format.A2M, "XORM")),
  (0b0000010100000000, (Format.A2M, "OR")),
  (0b0000010110000000, (Format.A2M, "ORM")),
  (0b0000011000000000, (Format.A2M, "AND")),
  (0b0000011010000000, (Format.A2M, "ANDM")),
  (0b0000011100000000, (Format.A2M, "MOV")),
  (0b0001000000000000, (Format.MEMORY, "SZA")),
  (0b0001000010000000, (Format.MEMORY, "SZ")),
  (0b0001000100000000, (Format.MEMORY, "SWAPA")),
  (0b0001000110000000, (Format.MEMORY, "SWAP")),
  (0b0001001000000000, (Format.A2M, "SBC")),
  (0b0001001010000000, (Format.A2M, "SBCM")),
  (0b0001001100000000, (Format.A2M, "ADC")),
  (0b0001001110000000, (Format.A2M, "ADCM")),
  (0b0001010000000000, (Format.MEMORY, "INCA")),
  (0b0001010010000000, (Format.MEMORY, "INC")),
  (0b0001010100000000, (Format.MEMORY, "DECA")),
  (0b0001010110000000, (Format.MEMORY, "DEC")),
  (0b0001011000000000, (Format.MEMORY, "SIZA")),
  (0b0001011010000000, (Format.MEMORY, "SIZ")),
  (0b0001011100000000, (Format.MEMORY, "SDZA")),
  (0b0001011110000000, (Format.MEMORY, "SDZ")),
  (0b0001100000000000, (Format.MEMORY, "RLA")),
  (0b0001100010000000, (Format.MEMORY, "RL")),
  (0b0001100100000000, (Format.MEMORY, "RRA")),
  (0b0001100110000000, (Format.MEMORY, "RR")),
  (0b0001101000000000, (Format.MEMORY, "RLCA")),
  (0b0001101010000000, (Format.MEMORY, "RLC")),
  (0b0001101100000000, (Format.MEMORY, "RRCA")),
  (0b0001101110000000, (Format.MEMORY, "RRC")),
  (0b0001110100000000, (Format.MEMORY, "TABRDC")),
  (0b0001110110000000, (Format.MEMORY, "TABRDL")),
  (0b0001111010000000, (Format.MEMORY, "DAA")),
  (0b0001111100000000, (Format.MEMORY, "CLR")),
  (0b0001111110000000, (Format.MEMORY, "SET"))
]

/-- Final fall-through of `_decode_word`: an `INVALID` instruction with no
mnemonic. -/
def decodeInvalid (address word : Nat) : Except String Instruction :=
  mkInstruction address none Format.INVALID word

/-- The mask-guarded lookup step `_decode_word` repeats for the Special,
Bit, Address, Literal and M2A groups (the Python source spells this block
out once per group with the group constants substituted): if the mask/mark
test passes and the sub-table lookup yields a truthy mnemonic, construct the
instruction, otherwise fall through to `next`. -/
def tryGroup (mask mark listMask : Nat) (table : List (Nat × String))
    (fmt : Format) (address word : Nat) (next : Except String Instruction) :
    Except String Instruction :=
  if word &&& mask = mark then
    match dictGet (word &&& listMask) table with
    | some opcodeName =>
        if opcodeName ≠ "" then
          mkInstruction address (some opcodeName) fmt word
        else next
    | none => next
  else next

/-- Step 4 of `_decode_word`: the Other fixed-field table, looked up with no
mask/mark guard; the Python code proceeds when both components of the
defaulted pair are not `None`. -/
def tryOther (address word : Nat) (next : Except String Instruction) :
    Except String Instruction :=
  match dictGet (word &&& OTHER_OPCODES_MASK) OTHER_OPCODES with
  | some (opcodeType, opcodeName) =>
      mkInstruction address (some opcodeName) opcodeType word
  | none => next

/-- `_decode_word`: the six pattern groups tried in source order, each
falling through to the next, ending at the `INVALID` constructor. -/
def decodeWord (address word : Nat) : Except String Instruction :=
  tryGroup SPECIAL_MASK SPECIAL_MARK SPECIAL_LIST SPECIAL_OPCODES
    Format.SPECIAL address word
    (tryGroup BIT_MASK BIT_MARK BIT_LIST BIT_OPCODES
      Format.BIT address word
      (tryGroup ADDRESS_MASK ADDRESS_MARK ADDRESS_LIST ADDRESS_OPCODES
        Format.ADDRESS address word
        (tryOther address word
          (tryGroup LITERAL_MASK LITERAL_MARK LITERAL_LIST LITERAL_OPCODES
            Format.LITERAL address word
            (tryGroup M2A_MASK M2A_MARK M2A_LIST M2A_OPCODES
              Format.M2A address word
              (decodeInvalid address word))))))

/-- `_decode_word` with its step 6 (the M2A fallback) deleted: the Literal
group falls through directly to the `INVALID` constructor.  Used to settle
whether step 6 is dead code. -/
def decodeWordNoM2A (address word : Nat) : Except String Instruction :=
  tryGroup SPECIAL_MASK SPECIAL_MARK SPECIAL_LIST SPECIAL_OPCODES
    Format.SPECIAL address word
    (tryGroup BIT_MASK BIT_MARK BIT_LIST BIT_OPCODES
      Format.BIT address word
      (tryGroup ADDRESS_MASK ADDRESS_MARK ADDRESS_LIST ADDRESS_OPCODES
        Format.ADDRESS address word
        (tryOther address word
          (tryGroup LITERAL_MASK LITERAL_MARK LITERAL_LIST LITERAL_OPCODES
            Format.LITERAL address word
            (decodeInvalid address word)))))

/-- What one mask-guarded group contributes, stated as spec data: the
format and mnemonic it would decode, or `none` when the word does not match
the group. -/
def groupMatch (mask mark listMask : Nat) (table : List (Nat × String))
    (fmt : Format) (word : Nat) : Option (Format × String) :=
  if word &&& mask = mark then
    match dictGet (word &&& listMask) table with
    | some opcodeName =>
        if opcodeName ≠ "" then some (fmt, opcodeName) else none
    | none => none
  else none

def groupSpecial (word : Nat) : Option (Format × String) :=
  groupMatch SPECIAL_MASK SPECIAL_MARK SPECIAL_LIST SPECIAL_OPCODES
    Format.SPECIAL word

def groupBit (word : Nat) : Option (Format × String) :=
  groupMatch BIT_MASK BIT_MARK BIT_LIST BIT_OPCODES Format.BIT word

def groupAddress (word : Nat) : Option (Format × String) :=
  groupMatch ADDRESS_MASK ADDRESS_MARK ADDRESS_LIST ADDRESS_OPCODES
    Format.ADDRESS word

def groupOther (word : Nat) : Option (Format × String) :=
  dictGet (word &&& OTHER_OPCODES_MASK) OTHER_OPCODES

def groupLiteral (word : Nat) : Option (Format × String) :=
  groupMatch LITERAL_MASK LITERAL_MARK LITERAL_LIST LITERAL_OPCODES
    Format.LITERAL word

def groupM2A (word : Nat) : Option (Format × String) :=
  groupMatch M2A_MASK M2A_MARK M2A_LIST M2A_OPCODES Format.M2A word

/-- The pattern groups in the exact priority order the specification
prescribes: Special, Bit, Address, Other fixed-field table, Literal, M2A
fallback. -/
def decodeGroups : List (Nat → Option (Format × String)) :=
  [groupSpecial, groupBit, groupAddress, groupOther, groupLiteral, groupM2A]

/-- The first group, in priority order, that matches the word. -/
def matchGroups (word : Nat) : Option (Format × String) :=
  decodeGroups.findSome? fun g => g word

/-- Modelled from the spec: ordered priority matching, returning at the
first group whose mask/mark test passes and whose sub-table lookup
succeeds, and an `INVALID` instruction when no group matches. -/
def decodeOrdered (address word : Nat) : Except String Instruction :=
  match matchGroups word with
  | some (fmt, opcodeName) => mkInstruction address (some opcodeName) fmt word
  | none => mkInstruction address none Format.INVALID word

/-- Every mnemonic of every opcode sub-table. -/
def allMnemonics : List String :=
  SPECIAL_OPCODES.map Prod.snd ++ BIT_OPCODES.map Prod.snd ++
    ADDRESS_OPCODES.map Prod.snd ++ (OTHER_OPCODES.map fun q => q.2.2) ++
    LITERAL_OPCODES.map Prod.snd ++ M2A_OPCODES.map Prod.snd

/-- `_load_binary_file`, modelled on the byte sequence already read from
disk (the filesystem checks and the short-read re-check are I/O and stay
outside the embedding): reject an empty, odd-length or oversized input,
otherwise unpack little-endian 16-bit words as `struct.unpack` with the
format string of the source does. -/
def unpackWordsLE : List Nat → List Nat
  | b0 :: b1 :: rest => (b0 + 256 * b1) :: unpackWordsLE rest
  | _ => []

def loadBinaryFile (sourceBytes : List Nat) : Except String (List Nat) :=
  if sourceBytes.length = 0 then
    Except.error "does not contain any code"
  else if sourceBytes.length % 2 = 1 then
    Except.error "is not word-aligned"
  else if CODE_FILE_MAX_SIZE < sourceBytes.length then
    Except.error "is too big to fit in the MCU memory"
  else
    Except.ok (unpackWordsLE sourceBytes)

/-- The list comprehension in `Disassembler.__init__` over
`enumerate(self._words)`: decode every word at its index.  (The tuple in the
Python comprehension names the index `word` and the value `address`, and the
call site swaps them back, so index and value do reach `_decode_word` in the
correct parameter order.) -/
def decodeAllAux : Nat → List Nat → Except String (List Instruction)
  | _, [] => Except.ok []
  | address, word :: rest =>
      match decodeWord address word with
      | Except.error e => Except.error e
      | Except.ok instruction =>
          match decodeAllAux (address + 1) rest with
          | Except.error e => Except.error e
          | Except.ok others => Except.ok (instruction :: others)

def decodeAll (words : List Nat) : Except String (List Instruction) :=
  decodeAllAux 0 words

/-- The Python label name expression in `_assign_labels`. -/
def labelName (counter : Nat) : String :=
  "label" ++ pyHexPad 4 counter

/-- `_assign_labels`: one forward pass over the decoded instructions with a
counter starting at 0; the label table is a key-unique association list in
insertion order, mirroring a Python dict.  Keys are `Option Nat` because the
dict is keyed by `instruction.first`. -/
def assignLabelsAux (labels : List (Option Nat × String)) (counter : Nat) :
    List Instruction → List (Option Nat × String)
  | [] => labels
  | instruction :: rest =>
      if instruction.type = Format.ADDRESS then
        if (dictGet instruction.first labels).isSome then
          assignLabelsAux labels counter rest
        else
          assignLabelsAux (labels ++ [(instruction.first, labelName counter)])
            (counter + 1) rest
      else
        assignLabelsAux labels counter rest

def assignLabels (instructions : List Instruction) :
    List (Option Nat × String) :=
  assignLabelsAux [] 0 instructions

/-- The target operands of the Address-format instructions of the sequence,
in scanning order. -/
def addressTargets (instructions : List Instruction) : List (Option Nat) :=
  (instructions.filter fun i => decide (i.type = Format.ADDRESS)).map
    fun i => i.first

/-- Keep the first occurrence of every element not already seen. -/
def dedupFirstAux (seen : List (Option Nat)) :
    List (Option Nat) → List (Option Nat)
  | [] => []
  | t :: rest =>
      if t ∈ seen then dedupFirstAux seen rest
      else t :: dedupFirstAux (t :: seen) rest

/-- Modelled from the spec: the distinct jump/call target addresses in the
order they are first encountered while scanning from address 0 upward. -/
def firstEncounterTargets (instructions : List Instruction) :
    List (Option Nat) :=
  dedupFirstAux [] (addressTargets instructions)

/-- Modelled from the spec: pair the i-th element of the list with the
label name of index `counter + i` (so with `label%04X` of i when starting
at 0). -/
def numberFrom (counter : Nat) :
    List (Option Nat) → List (Option Nat × String)
  | [] => []
  | t :: rest => (t, labelName counter) :: numberFrom (counter + 1) rest

/-- `_lookup_memory_location` (its negative-location guard is vacuous for
naturals): a named map entry wins, a missing or falsy entry renders
numerically. -/
def lookupMemoryLocation (location : Nat) : String :=
  let result : Option String :=
    if location < memoryMap.length then memoryMap.getD location none
    else none
  match result with
  | some s => if s = "" then "[0" ++ pyHexPad 2 location ++ "h]" else s
  | none => "[0" ++ pyHexPad 2 location ++ "h]"

/-- The body of `_format_instruction` after the address/word column, one
case per format.  A Python attribute that would be `None` where an `int` or
`str` is required would raise; that is an `Except.error` here. -/
def formatBody (labels : List (Option Nat × String)) (hasLabels : Bool)
    (instruction : Instruction) : Except String String :=
  match instruction.type with
  | Format.SPECIAL =>
      match instruction.name with
      | some n => Except.ok n
      | none => Except.error "missing mnemonic"
  | Format.M2A =>
      match instruction.name, instruction.first with
      | some n, some f => Except.ok (n ++ "\t" ++ lookupMemoryLocation f ++ ", A")
      | _, _ => Except.error "missing mnemonic or operand"
  | Format.A2M =>
      match instruction.name, instruction.first with
      | some n, some f => Except.ok (n ++ "\tA, " ++ lookupMemoryLocation f)
      | _, _ => Except.error "missing mnemonic or operand"
  | Format.LITERAL =>
      match instruction.name, instruction.first with
      | some n, some f => Except.ok (n ++ "\tA, 0" ++ pyHexPad 2 f ++ "h")
      | _, _ => Except.error "missing mnemonic or operand"
  | Format.ADDRESS =>
      match instruction.name with
      | some n =>
          if hasLabels then
            match dictGet instruction.first labels with
            | some l => Except.ok (n ++ "\t" ++ l)
            | none => Except.error "KeyError in label table"
          else
            match instruction.first with
            | some f => Except.ok (n ++ "\t0" ++ pyHexPad 4 f ++ "h")
            | none => Except.error "missing operand"
      | none => Except.error "missing mnemonic"
  | Format.BIT =>
      match instruction.name, instruction.first, instruction.second with
      | some n, some f, some b =>
          Except.ok (n ++ "\t" ++ lookupMemoryLocation f ++ "." ++ pyDec b)
      | _, _, _ => Except.error "missing mnemonic or operand"
  | Format.MEMORY =>
      match instruction.name, instruction.first with
      | some n, some f => Except.ok (n ++ "\t" ++ lookupMemoryLocation f)
      | _, _ => Except.error "missing mnemonic or operand"
  | Format.INVALID =>
      Except.ok ("; (" ++ pyBinPad 16 instruction.word ++ ") Invalid opcode")

/-- `_format_instruction`: optional label header, the address and raw word
as 4-digit uppercase hex, the format-specific body, and a newline. -/
def formatInstruction (labels : List (Option Nat × String))
    (hasLabels : Bool) (address : Nat) (instruction : Instruction) :
    Except String String :=
  let header :=
    match dictGet (some address) labels with
    | some l => "\n" ++ l ++ ":\n\n"
    | none => ""
  match formatBody labels hasLabels instruction with
  | Except.error e => Except.error e
  | Except.ok body =>
      Except.ok (header ++ pyHexPad 4 address ++ "\t" ++
        pyHexPad 4 instruction.word ++ "\t" ++ body ++ "\n")

/-- `generate_output`: format every instruction at its index and
concatenate. -/
def formatAllAux (labels : List (Option Nat × String)) (hasLabels : Bool) :
    Nat → List Instruction → Except String String
  | _, [] => Except.ok ""
  | address, instruction :: rest =>
      match formatInstruction labels hasLabels address instruction with
      | Except.error e => Except.error e
      | Except.ok line =>
          match formatAllAux labels hasLabels (address + 1) rest with
          | Except.error e => Except.error e
          | Except.ok others => Except.ok (line ++ others)

/-- `Disassembler.__init__` (from already-loaded words) followed by
`generate_output`: decode everything, optionally assign labels, then render
all lines in ascending address order. -/
def disassemble (words : List Nat) (labelsEnabled : Bool) :
    Except String String :=
  match decodeAll words with
  | Except.error e => Except.error e
  | Except.ok instructions =>
      let labels := if labelsEnabled then assignLabels instructions else []
      formatAllAux labels labelsEnabled 0 instructions

/-! ## Helper lemmas -/

theorem dictGet_mem_values {κ α : Type} [DecidableEq κ] (key : κ)
    (l : List (κ × α)) (v : α) (h : dictGet key l = some v) :
    v ∈ l.map Prod.snd := by
  induction l with
  | nil => simp [dictGet] at h
  | cons p rest ih =>
      obtain ⟨k, w⟩ := p
      by_cases hk : key = k
      · simp [dictGet, hk] at h
        simp [h]
      · simp [dictGet, hk] at h
        simpa using Or.inr (ih h)

theorem dictGet_isSome_iff {κ α : Type} [DecidableEq κ] (key : κ)
    (l : List (κ × α)) :
    (dictGet key l).isSome = true ↔ key ∈ l.map Prod.fst := by
  induction l with
  | nil => simp [dictGet]
  | cons p rest ih =>
      obtain ⟨k, w⟩ := p
      by_cases hk : key = k
      · simp [dictGet, hk]
      · simp [dictGet, hk, ih]

theorem mkInstruction_ok_inv (address : Nat) (opcodeName : Option String)
    (fmt : Format) (word : Nat) (i : Instruction)
    (h : mkInstruction address opcodeName fmt word = Except.ok i) :
    i.type = fmt ∧ i.word = word ∧ i.address = address ∧
    (fmt ≠ Format.INVALID → ∃ n, i.name = some n) ∧
    i.first = (instructionOperands fmt word).1 ∧
    i.second = (instructionOperands fmt word).2 := by
  unfold mkInstruction at h
  by_cases hg1 : address < CODE_ADDRESS_START ∨ CODE_ADDRESS_END < address
  · rw [if_pos hg1] at h; cases h
  · rw [if_neg hg1] at h
    by_cases hg2 : fmt ≠ Format.INVALID ∧
        (strippedName opcodeName = none ∨ strippedName opcodeName = some "")
    · rw [if_pos hg2] at h; cases h
    · rw [if_neg hg2] at h
      injection h with h
      subst h
      refine ⟨rfl, rfl, rfl, ?_, rfl, rfl⟩
      intro hfmt
      cases hsn : strippedName opcodeName with
      | none => exact absurd ⟨hfmt, Or.inl hsn⟩ hg2
      | some n => exact ⟨n, by simp [hsn]⟩

theorem mkInstruction_some_ok (address : Nat)
    (ha : address ≤ CODE_ADDRESS_END) (nm : String) (fmt : Format)
    (word : Nat) (h1 : nm ≠ "") (h2 : pyStrip nm ≠ "") :
    ∃ i, mkInstruction address (some nm) fmt word = Except.ok i := by
  have hg1 : ¬(address < CODE_ADDRESS_START ∨ CODE_ADDRESS_END < address) := by
    simp [CODE_ADDRESS_START]
    omega
  have hg2 : ¬(fmt ≠ Format.INVALID ∧
      (strippedName (some nm) = none ∨ strippedName (some nm) = some "")) := by
    simp [strippedName, h1, h2]
  exact ⟨_, by unfold mkInstruction; rw [if_neg hg1, if_neg hg2]⟩

theorem mkInstruction_invalid_ok (address : Nat)
    (ha : address ≤ CODE_ADDRESS_END) (word : Nat) :
    mkInstruction address none Format.INVALID word =
      Except.ok
        { address := address, word := word, name := none,
          type := Format.INVALID, first := none, second := none } := by
  have hg1 : ¬(address < CODE_ADDRESS_START ∨ CODE_ADDRESS_END < address) := by
    simp [CODE_ADDRESS_START]
    omega
  have hg2 : ¬(Format.INVALID ≠ Format.INVALID ∧
      (strippedName none = none ∨ strippedName none = some "")) := by
    simp
  unfold mkInstruction
  rw [if_neg hg1, if_neg hg2]
  rfl

theorem tryGroup_eq_groupMatch (mask mark listMask : Nat)
    (table : List (Nat × String)) (fmt : Format) (address word : Nat)
    (next : Except String Instruction) :
    tryGroup mask mark listMask table fmt address word next =
      match groupMatch mask mark listMask table fmt word with
      | some p => mkInstruction address (some p.2) p.1 word
      | none => next := by
  unfold tryGroup groupMatch
  by_cases hm : word &&& mask = mark
  · simp only [hm, if_pos]
    cases hd : dictGet (word &&& listMask) table with
    | none => rfl
    | some n =>
        by_cases hn : n = "" <;> simp [hn]
  · simp [hm]

theorem tryOther_eq_groupOther (address word : Nat)
    (next : Except String Instruction) :
    tryOther address word next =
      match groupOther word with
      | some p => mkInstruction address (some p.2) p.1 word
      | none => next := by
  unfold tryOther groupOther
  cases dictGet (word &&& OTHER_OPCODES_MASK) OTHER_OPCODES with
  | none => rfl
  | some p => cases p; rfl

/-- The decoding chain of the source is the ordered priority matching of
the specification. -/
theorem decodeWord_eq_decodeOrdered (address word : Nat) :
    decodeWord address word = decodeOrdered address word := by
  unfold decodeWord decodeOrdered matchGroups decodeGroups
  simp only [tryGroup_eq_groupMatch, tryOther_eq_groupOther,
    List.findSome?_cons, decodeInvalid, groupSpecial, groupBit,
    groupAddress, groupLiteral, groupM2A]
  cases groupMatch SPECIAL_MASK SPECIAL_MARK SPECIAL_LIST SPECIAL_OPCODES
      Format.SPECIAL word with
  | some p => cases p; rfl
  | none =>
  cases groupMatch BIT_MASK BIT_MARK BIT_LIST BIT_OPCODES
      Format.BIT word with
  | some p => cases p; rfl
  | none =>
  cases groupMatch ADDRESS_MASK ADDRESS_MARK ADDRESS_LIST ADDRESS_OPCODES
      Format.ADDRESS word with
  | some p => cases p; rfl
  | none =>
  cases groupOther word with
  | some p => cases p; rfl
  | none =>
  cases groupMatch LITERAL_MASK LITERAL_MARK LITERAL_LIST LITERAL_OPCODES
      Format.LITERAL word with
  | some p => cases p; rfl
  | none =>
  cases groupMatch M2A_MASK M2A_MARK M2A_LIST M2A_OPCODES
      Format.M2A word with
  | some p => cases p; rfl
  | none => simp [List.findSome?]

theorem groupMatch_eq_some (mask mark listMask : Nat)
    (table : List (Nat × String)) (fmt : Format) (word : Nat)
    (p : Format × String)
    (h : groupMatch mask mark listMask table fmt word = some p) :
    p.1 = fmt ∧ p.2 ∈ table.map Prod.snd ∧ p.2 ≠ "" ∧
      word &&& mask = mark := by
  unfold groupMatch at h
  by_cases hm : word &&& mask = mark
  · rw [if_pos hm] at h
    cases hd : dictGet (word &&& listMask) table with
    | none => rw [hd] at h; cases h
    | some n =>
        rw [hd] at h
        have h : (if n ≠ "" then some (fmt, n) else none) = some p := h
        by_cases hn : n = ""
        · rw [if_neg (by simp [hn])] at h; cases h
        · rw [if_pos hn] at h
          injection h with h
          subst h
          exact ⟨rfl, dictGet_mem_values _ _ _ hd, hn, hm⟩
  · rw [if_neg hm] at h; cases h

theorem groupOther_eq_some (word : Nat) (p : Format × String)
    (h : groupOther word = some p) :
    p.2 ∈ OTHER_OPCODES.map fun q => q.2.2 := by
  unfold groupOther at h
  have := dictGet_mem_values _ _ _ h
  simp only [List.mem_map] at this ⊢
  obtain ⟨q, hq, hqp⟩ := this
  exact ⟨q, hq, by rw [hqp]⟩

theorem matchGroups_mem (word : Nat) (p : Format × String)
    (h : matchGroups word = some p) : p.2 ∈ allMnemonics := by
  unfold matchGroups decodeGroups at h
  simp only [List.findSome?_cons, List.findSome?_nil, groupSpecial,
    groupBit, groupAddress, groupLiteral, groupM2A] at h
  unfold allMnemonics
  cases h1 : groupMatch SPECIAL_MASK SPECIAL_MARK SPECIAL_LIST
      SPECIAL_OPCODES Format.SPECIAL word with
  | some q =>
      rw [h1] at h; injection h with h; subst h
      simp [(groupMatch_eq_some _ _ _ _ _ _ _ h1).2.1]
  | none =>
  rw [h1] at h
  cases h2 : groupMatch BIT_MASK BIT_MARK BIT_LIST BIT_OPCODES
      Format.BIT word with
  | some q =>
      rw [h2] at h; injection h with h; subst h
      simp [(groupMatch_eq_some _ _ _ _ _ _ _ h2).2.1]
  | none =>
  rw [h2] at h
  cases h3 : groupMatch ADDRESS_MASK ADDRESS_MARK ADDRESS_LIST
      ADDRESS_OPCODES Format.ADDRESS word with
  | some q =>
      rw [h3] at h; injection h with h; subst h
      simp [(groupMatch_eq_some _ _ _ _ _ _ _ h3).2.1]
  | none =>
  rw [h3] at h
  cases h4 : groupOther word with
  | some q =>
      rw [h4] at h; injection h with h; subst h
      simp [groupOther_eq_some _ _ h4]
  | none =>
  rw [h4] at h
  cases h5 : groupMatch LITERAL_MASK LITERAL_MARK LITERAL_LIST
      LITERAL_OPCODES Format.LITERAL word with
  | some q =>
      rw [h5] at h; injection h with h; subst h
      simp [(groupMatch_eq_some _ _ _ _ _ _ _ h5).2.1]
  | none =>
  rw [h5] at h
  cases h6 : groupMatch M2A_MASK M2A_MARK M2A_LIST M2A_OPCODES
      Format.M2A word with
  | some q =>
      rw [h6] at h; injection h with h; subst h
      simp [(groupMatch_eq_some _ _ _ _ _ _ _ h6).2.1]
  | none => rw [h6] at h; cases h

theorem allMnemonics_sound :
    ∀ s ∈ allMnemonics, s ≠ "" ∧ pyStrip s ≠ "" := by decide

/-- Main totality lemma: on any in-range address the decoder returns an
instruction, and an `INVALID` one exactly when no group matched. -/
theorem decodeWord_isOk (word address : Nat)
    (ha : address ≤ CODE_ADDRESS_END) :
    ∃ i, decodeWord address word = Except.ok i ∧
      (matchGroups word = none → i.type = Format.INVALID) := by
  rw [decodeWord_eq_decodeOrdered]
  unfold decodeOrdered
  cases hm : matchGroups word with
  | none =>
      exact ⟨_, mkInstruction_invalid_ok address ha word, fun _ => rfl⟩
  | some p =>
      obtain ⟨fmt, nm⟩ := p
      have hmem : nm ∈ allMnemonics := matchGroups_mem word (fmt, nm) hm
      obtain ⟨hne, hst⟩ := allMnemonics_sound nm hmem
      obtain ⟨i, hi⟩ := mkInstruction_some_ok address ha nm fmt word hne hst
      exact ⟨i, hi, fun hc => by cases hc⟩

theorem m2a_mark_in_other (word : Nat) (h : word &&& M2A_MASK = M2A_MARK) :
    groupOther word = some (Format.M2A, "MOV") := by
  unfold groupOther
  have hm : word &&& OTHER_OPCODES_MASK = M2A_MARK := by
    rw [show OTHER_OPCODES_MASK = M2A_MASK from rfl]
    exact h
  rw [hm]
  rfl

theorem decodeWord_eq_noM2A (address word : Nat) :
    decodeWord address word = decodeWordNoM2A address word := by
  unfold decodeWord decodeWordNoM2A
  simp only [tryGroup_eq_groupMatch, tryOther_eq_groupOther]
  cases h1 : groupMatch SPECIAL_MASK SPECIAL_MARK SPECIAL_LIST
      SPECIAL_OPCODES Format.SPECIAL word with
  | some p => rfl
  | none =>
  cases h2 : groupMatch BIT_MASK BIT_MARK BIT_LIST BIT_OPCODES
      Format.BIT word with
  | some p => rfl
  | none =>
  cases h3 : groupMatch ADDRESS_MASK ADDRESS_MARK ADDRESS_LIST
      ADDRESS_OPCODES Format.ADDRESS word with
  | some p => rfl
  | none =>
  cases h4 : groupOther word with
  | some p => rfl
  | none =>
  cases h5 : groupMatch LITERAL_MASK LITERAL_MARK LITERAL_LIST
      LITERAL_OPCODES Format.LITERAL word with
  | some p => rfl
  | none =>
  cases h6 : groupMatch M2A_MASK M2A_MARK M2A_LIST M2A_OPCODES
      Format.M2A word with
  | none => rfl
  | some p =>
      have hmark := (groupMatch_eq_some _ _ _ _ _ _ _ h6).2.2.2
      have := m2a_mark_in_other word hmark
      rw [h4] at this
      cases this

theorem dedupFirstAux_cons (seen : List (Option Nat)) (t : Option Nat)
    (rest : List (Option Nat)) :
    dedupFirstAux seen (t :: rest) =
      if t ∈ seen then dedupFirstAux seen rest
      else t :: dedupFirstAux (t :: seen) rest := rfl

theorem dedupFirstAux_congr (l : List (Option Nat)) :
    ∀ s₁ s₂, (∀ x, x ∈ s₁ ↔ x ∈ s₂) →
      dedupFirstAux s₁ l = dedupFirstAux s₂ l := by
  induction l with
  | nil => intro s₁ s₂ hs; rfl
  | cons t rest ih =>
      intro s₁ s₂ hs
      unfold dedupFirstAux
      by_cases ht : t ∈ s₁
      · rw [if_pos ht, if_pos ((hs t).1 ht)]
        exact ih _ _ hs
      · rw [if_neg ht, if_neg (fun c => ht ((hs t).2 c))]
        exact congrArg _ (ih _ _ (by intro x; simp [List.mem_cons, hs x]))

theorem mem_dedupFirstAux (l : List (Option Nat)) :
    ∀ seen x, x ∈ dedupFirstAux seen l ↔ x ∈ l ∧ x ∉ seen := by
  induction l with
  | nil => simp [dedupFirstAux]
  | cons t rest ih =>
      intro seen x
      unfold dedupFirstAux
      by_cases ht : t ∈ seen
      · rw [if_pos ht, ih]
        simp only [List.mem_cons]
        constructor
        · rintro ⟨hr, hs⟩
          exact ⟨Or.inr hr, hs⟩
        · rintro ⟨hor, hs⟩
          cases hor with
          | inl he => exact absurd (he ▸ ht) hs
          | inr hr => exact ⟨hr, hs⟩
      · rw [if_neg ht]
        simp only [List.mem_cons, ih (t :: seen) x]
        constructor
        · rintro (he | ⟨hr, hs⟩)
          · exact ⟨Or.inl he, he ▸ ht⟩
          · refine ⟨Or.inr hr, fun c => hs ?_⟩
            simp [List.mem_cons, c]
        · rintro ⟨hor, hs⟩
          cases hor with
          | inl he => exact Or.inl he
          | inr hr =>
              by_cases he : x = t
              · exact Or.inl he
              · exact Or.inr ⟨hr, by simp [List.mem_cons, he, hs]⟩

theorem dedupFirstAux_eq_nil (l : List (Option Nat)) :
    ∀ seen, (∀ x ∈ l, x ∈ seen) → dedupFirstAux seen l = [] := by
  induction l with
  | nil => intro seen hall; rfl
  | cons t rest ih =>
      intro seen hall
      unfold dedupFirstAux
      rw [if_pos (hall t (List.mem_cons_self t rest))]
      exact ih seen fun x hx => hall x (List.mem_cons_of_mem t hx)

theorem numberFrom_keys : ∀ (l : List (Option Nat)) (counter : Nat),
    (numberFrom counter l).map Prod.fst = l := by
  intro l
  induction l with
  | nil => intro counter; rfl
  | cons t rest ih => intro counter; simp [numberFrom, ih]

theorem addressTargets_cons (i : Instruction) (rest : List Instruction) :
    addressTargets (i :: rest) =
      if i.type = Format.ADDRESS then i.first :: addressTargets rest
      else addressTargets rest := by
  by_cases hty : i.type = Format.ADDRESS <;>
    simp [addressTargets, List.filter_cons, hty]

theorem assignLabelsAux_eq (instructions : List Instruction) :
    ∀ (labels : List (Option Nat × String)) (counter : Nat),
      assignLabelsAux labels counter instructions =
        labels ++ numberFrom counter
          (dedupFirstAux (labels.map Prod.fst)
            (addressTargets instructions)) := by
  induction instructions with
  | nil =>
      intro labels counter
      simp [assignLabelsAux, addressTargets, dedupFirstAux, numberFrom]
  | cons i rest ih =>
      intro labels counter
      rw [addressTargets_cons]
      by_cases hty : i.type = Format.ADDRESS
      · rw [if_pos hty]
        by_cases hmem : (dictGet i.first labels).isSome = true
        · have hmem2 : i.first ∈ labels.map Prod.fst :=
            (dictGet_isSome_iff _ _).1 hmem
          rw [show assignLabelsAux labels counter (i :: rest) =
              assignLabelsAux labels counter rest from by
            simp [assignLabelsAux, hty, hmem]]
          rw [ih labels counter]
          rw [dedupFirstAux_cons, if_pos hmem2]
        · have hmem2 : i.first ∉ labels.map Prod.fst := fun c =>
            hmem ((dictGet_isSome_iff _ _).2 c)
          rw [show assignLabelsAux labels counter (i :: rest) =
              assignLabelsAux (labels ++ [(i.first, labelName counter)])
                (counter + 1) rest from by
            simp [assignLabelsAux, hty, hmem]]
          rw [ih _ _]
          rw [dedupFirstAux_cons, if_neg hmem2]
          rw [show (labels ++ [(i.first, labelName counter)]).map Prod.fst =
              labels.map Prod.fst ++ [i.first] from by simp]
          rw [dedupFirstAux_congr _
            (labels.map Prod.fst ++ [i.first])
            (i.first :: labels.map Prod.fst)
            (by intro x; simp [List.mem_append, List.mem_cons, or_comm])]
          simp [numberFrom]
      · rw [if_neg hty]
        rw [show assignLabelsAux labels counter (i :: rest) =
            assignLabelsAux labels counter rest from by
          simp [assignLabelsAux, hty]]
        exact ih labels counter

theorem assignLabels_eq (instructions : List Instruction) :
    assignLabels instructions =
      numberFrom 0 (firstEncounterTargets instructions) := by
  unfold assignLabels firstEncounterTargets
  rw [assignLabelsAux_eq]
  simp

theorem assignLabels_isSome_iff (instructions : List Instruction)
    (k : Option Nat) :
    (dictGet k (assignLabels instructions)).isSome = true ↔
      k ∈ addressTargets instructions := by
  rw [assignLabels_eq, dictGet_isSome_iff]
  unfold firstEncounterTargets
  rw [numberFrom_keys, mem_dedupFirstAux]
  simp

theorem mem_addressTargets (instructions : List Instruction)
    (k : Option Nat) :
    k ∈ addressTargets instructions ↔
      ∃ i, i ∈ instructions ∧ i.type = Format.ADDRESS ∧ i.first = k := by
  unfold addressTargets
  simp only [List.mem_map, List.mem_filter, decide_eq_true_eq]
  constructor
  · rintro ⟨i, ⟨h1, h2⟩, h3⟩
    exact ⟨i, h1, h2, h3⟩
  · rintro ⟨i, h1, h2, h3⟩
    exact ⟨i, ⟨h1, h2⟩, h3⟩

theorem assignLabels_idem (instructions : List Instruction) :
    assignLabelsAux (assignLabels instructions) 0 instructions =
      assignLabels instructions := by
  rw [assignLabelsAux_eq, dedupFirstAux_eq_nil]
  · simp [numberFrom]
  · intro x hx
    exact (dictGet_isSome_iff _ _).1
      ((assignLabels_isSome_iff instructions x).2 hx)

/-! ## Claim theorems -/

/-- C1: for every 16-bit word and every address in [0x0000, 0x07FF] the
decoder terminates without raising and returns exactly one `Instruction`
(always `Except.ok`); a word matched by no pattern group yields an
`INVALID`-format instruction rather than an error. -/
theorem claim_C1_decode_total (word address : Nat)
    (ha : address ≤ CODE_ADDRESS_END) :
    ∃ i, decodeWord address word = Except.ok i ∧
      (matchGroups word = none → i.type = Format.INVALID) :=
  decodeWord_isOk word address ha

theorem claim_C1_decode_total_witness :
    ∃ i, decodeWord 5 0xFFFF = Except.ok i ∧
      (matchGroups 0xFFFF = none → i.type = Format.INVALID) :=
  claim_C1_decode_total 0xFFFF 5 (by decide)

/-- C2: the decoder equals ordered priority matching over the groups in the
exact order Special, Bit, Address, Other fixed-field table, Literal, M2A
fallback (`decodeGroups`), returning at the first group whose mask/mark
test passes and whose sub-table lookup succeeds; hence on any overlap of
bit patterns the earlier group decides. -/
theorem claim_C2_decode_order (address word : Nat) :
    decodeWord address word = decodeOrdered address word :=
  decodeWord_eq_decodeOrdered address word

/-- C8: the M2A fallback is dead code: a word passing its mask/mark test is
already matched by the Other fixed-field table as `M2A`/`MOV`, so the
decoder with step 6 removed is extensionally equal to the full decoder. -/
theorem claim_C8_m2a_fallback_dead :
    (∀ word, word &&& M2A_MASK = M2A_MARK →
      groupOther word = some (Format.M2A, "MOV")) ∧
    ∀ address word, decodeWord address word = decodeWordNoM2A address word :=
  ⟨m2a_mark_in_other, decodeWord_eq_noM2A⟩

theorem claim_C8_m2a_fallback_dead_witness :
    groupOther 0x0080 = some (Format.M2A, "MOV") :=
  claim_C8_m2a_fallback_dead.1 0x0080 (by decide)

/-- C3: `_assign_labels` is deterministic (it is a pure function of the
instruction sequence) and idempotent: re-running it on the same sequence
starting from its own output changes nothing; and its output pairs the i-th
distinct target address first encountered while scanning Address-format
instructions from address 0 upward with the name `label` followed by the
4-digit zero-padded uppercase hex of i, counting from 0 (`numberFrom 0`). -/
theorem claim_C3_labels_deterministic_idempotent
    (instructions : List Instruction) :
    assignLabelsAux (assignLabels instructions) 0 instructions =
      assignLabels instructions ∧
    assignLabels instructions =
      numberFrom 0 (firstEncounterTargets instructions) :=
  ⟨assignLabels_idem instructions, assignLabels_eq instructions⟩

/-- C4: an address is a key of the label table iff it is the target operand
of at least one Address-format instruction anywhere in the sequence
(forward and backward references alike), and no other address gets a
label. -/
theorem claim_C4_label_table_keys (instructions : List Instruction)
    (a : Nat) :
    (dictGet (some a) (assignLabels instructions)).isSome = true ↔
      ∃ i, i ∈ instructions ∧ i.type = Format.ADDRESS ∧
        i.first = some a := by
  rw [assignLabels_isSome_iff, mem_addressTargets]

/-- C5: disassembling the 2-word program 0x0000, 0x2000 with labels
enabled yields exactly a `label0000:` line surrounded by blank lines
immediately before the line of address 0 (the NOP), and the CALL at
address 1 renders its operand as `label0000`. -/
theorem claim_C5_end_to_end :
    disassemble [0x0000, 0x2000] true =
      Except.ok ("\nlabel0000:\n\n" ++ "0000\t0000\tNOP\n" ++
        "0001\t2000\tCALL\tlabel0000\n") := rfl

set_option maxRecDepth 8000 in
/-- C7: memory-location lookup renders 0x00 as IAR0, 0x10 and 0x60 as
bracketed hex; in general over the whole operand domain (data addresses
are always below 0x100), a named map entry renders as its name and every
other location renders as left bracket, `0`, two uppercase hex digits,
`h`, right bracket. -/
theorem claim_C7_memloc_lookup :
    lookupMemoryLocation 0x00 = "IAR0" ∧
    lookupMemoryLocation 0x10 = "[010h]" ∧
    lookupMemoryLocation 0x60 = "[060h]" ∧
    ∀ location, location < 0x100 →
      ((memoryMap.getD location none).isSome = true →
        lookupMemoryLocation location =
          (memoryMap.getD location none).getD "") ∧
      ((memoryMap.getD location none).isSome = false →
        lookupMemoryLocation location =
          "[0" ++ String.mk [digitChar (location / 16),
            digitChar (location % 16)] ++ "h]" ∧
        digitChar (location / 16) ∈ hexDigitChars ∧
        digitChar (location % 16) ∈ hexDigitChars) := by decide

theorem claim_C7_memloc_lookup_witness :
    lookupMemoryLocation 0x30 =
      "[0" ++ String.mk [digitChar (0x30 / 16), digitChar (0x30 % 16)] ++
        "h]" :=
  ((claim_C7_memloc_lookup.2.2.2 0x30 (by decide)).2 (by decide)).1

/-- C9 counterexample: the Memory Map does not have 0x60 entries, and
address 0x60 is not outside its bounds. -/
theorem claim_C9_counterexample :
    ¬memoryMap.length = 0x60 ∧ 0x60 < memoryMap.length := by decide

/-- C9 as amended: the Memory Map has 0x61 entries (indexes 0x00 through
0x60 in order — the `10H` row of the source contains 17 entries), so every
address of 0x61 or above lies outside the table's bounds, and the final
in-bounds index 0x60 carries no name. -/
theorem claim_C9_memory_map_size :
    memoryMap.length = 0x61 ∧ memoryMap.getD 0x60 none = none := by decide

theorem unpackWordsLE_length :
    ∀ sourceBytes : List Nat,
      (unpackWordsLE sourceBytes).length = sourceBytes.length / 2
  | [] => rfl
  | [_] => by
      show (0 : Nat) = 1 / 2
      omega
  | b0 :: b1 :: rest => by
      simp only [unpackWordsLE, List.length_cons,
        unpackWordsLE_length rest]
      omega

theorem unpackWordsLE_getD :
    ∀ (sourceBytes : List Nat) (i : Nat),
      2 * i + 1 < sourceBytes.length →
      (unpackWordsLE sourceBytes).getD i 0 =
        sourceBytes.getD (2 * i) 0 +
          256 * sourceBytes.getD (2 * i + 1) 0
  | [], i, h => by simp at h
  | [_], i, h => by simp at h
  | b0 :: b1 :: rest, 0, h => by simp [unpackWordsLE]
  | b0 :: b1 :: rest, i + 1, h => by
      have ih := unpackWordsLE_getD rest i
        (by simp only [List.length_cons] at h; omega)
      simp only [unpackWordsLE, show 2 * (i + 1) = 2 * i + 1 + 1 from by
          omega,
        show 2 * (i + 1) + 1 = 2 * i + 1 + 1 + 1 from by omega,
        List.getD_cons_succ]
      exact ih

/-- C6: the loader rejects an empty, odd-length or oversized byte sequence
with an error before any decoding, and otherwise returns exactly
`length / 2` words decoded in little-endian byte order, word 0 first. -/
theorem claim_C6_loader (sourceBytes : List Nat) :
    (sourceBytes.length = 0 ∨ sourceBytes.length % 2 = 1 ∨
        CODE_FILE_MAX_SIZE < sourceBytes.length →
      ∃ e, loadBinaryFile sourceBytes = Except.error e) ∧
    (sourceBytes.length ≠ 0 → sourceBytes.length % 2 = 0 →
        sourceBytes.length ≤ CODE_FILE_MAX_SIZE →
      ∃ words, loadBinaryFile sourceBytes = Except.ok words ∧
        words.length = sourceBytes.length / 2 ∧
        ∀ i, 2 * i + 1 < sourceBytes.length →
          words.getD i 0 =
            sourceBytes.getD (2 * i) 0 +
              256 * sourceBytes.getD (2 * i + 1) 0) := by
  constructor
  · intro hbad
    unfold loadBinaryFile
    rcases hbad with h0 | h1 | h2
    · rw [if_pos h0]
      exact ⟨_, rfl⟩
    · rw [if_neg (by omega), if_pos h1]
      exact ⟨_, rfl⟩
    · by_cases h1 : sourceBytes.length % 2 = 1
      · rw [if_neg (by omega), if_pos h1]
        exact ⟨_, rfl⟩
      · rw [if_neg (by omega), if_neg h1, if_pos h2]
        exact ⟨_, rfl⟩
  · intro h0 h1 h2
    unfold loadBinaryFile
    rw [if_neg h0, if_neg (by omega), if_neg (by omega)]
    exact ⟨unpackWordsLE sourceBytes, rfl, unpackWordsLE_length sourceBytes,
      fun i hi => unpackWordsLE_getD sourceBytes i hi⟩

theorem claim_C6_loader_witness :
    (∃ e, loadBinaryFile [1, 2, 3] = Except.error e) ∧
    ∃ words, loadBinaryFile [0x34, 0x12, 0x00, 0x20] = Except.ok words ∧
      words.length = ([0x34, 0x12, 0x00, 0x20] : List Nat).length / 2 ∧
      ∀ i, 2 * i + 1 < ([0x34, 0x12, 0x00, 0x20] : List Nat).length →
        words.getD i 0 =
          ([0x34, 0x12, 0x00, 0x20] : List Nat).getD (2 * i) 0 +
            256 * ([0x34, 0x12, 0x00, 0x20] : List Nat).getD (2 * i + 1) 0 :=
  ⟨(claim_C6_loader [1, 2, 3]).1 (Or.inr (Or.inl (by decide))),
    (claim_C6_loader [0x34, 0x12, 0x00, 0x20]).2 (by decide) (by decide)
      (by decide)⟩

theorem decodeAllAux_mem :
    ∀ (words : List Nat) (start : Nat) (instructions : List Instruction),
      decodeAllAux start words = Except.ok instructions →
      ∀ i ∈ instructions, ∃ a w, decodeWord a w = Except.ok i := by
  intro words
  induction words with
  | nil =>
      intro start instructions h i hi
      unfold decodeAllAux at h
      injection h with h
      subst h
      cases hi
  | cons w rest ih =>
      intro start instructions h i hi
      unfold decodeAllAux at h
      cases hw : decodeWord start w with
      | error e => rw [hw] at h; cases h
      | ok i0 =>
          rw [hw] at h
          cases hr : decodeAllAux (start + 1) rest with
          | error e => rw [hr] at h; cases h
          | ok others =>
              rw [hr] at h
              injection h with h
              subst h
              cases hi with
              | head => exact ⟨start, w, hw⟩
              | tail _ hmem => exact ih (start + 1) others hr i hmem

theorem decodeWord_wf (address word : Nat) (i : Instruction)
    (h : decodeWord address word = Except.ok i) :
    (i.type ≠ Format.INVALID → ∃ n, i.name = some n) ∧
    (i.type = Format.M2A ∨ i.type = Format.A2M ∨
      i.type = Format.LITERAL ∨ i.type = Format.ADDRESS ∨
      i.type = Format.MEMORY ∨ i.type = Format.BIT →
      ∃ f, i.first = some f) ∧
    (i.type = Format.BIT → ∃ b, i.second = some b) := by
  rw [decodeWord_eq_decodeOrdered] at h
  unfold decodeOrdered at h
  cases hm : matchGroups word with
  | none =>
      rw [hm] at h
      obtain ⟨hty, -, -, hname, hf, hs⟩ := mkInstruction_ok_inv _ _ _ _ _ h
      rw [hty]
      refine ⟨hname, ?_, ?_⟩
      · rintro (ht | ht | ht | ht | ht | ht) <;> cases ht
      · intro ht; cases ht
  | some p =>
      obtain ⟨fmt, nm⟩ := p
      rw [hm] at h
      obtain ⟨hty, -, -, hname, hf, hs⟩ := mkInstruction_ok_inv _ _ _ _ _ h
      rw [hty]
      refine ⟨hname, ?_, ?_⟩
      · rintro (ht | ht | ht | ht | ht | ht) <;>
          subst ht <;> simp only [instructionOperands] at hf <;>
          exact ⟨_, hf⟩
      · intro ht
        subst ht
        simp only [instructionOperands] at hs
        exact ⟨_, hs⟩

theorem formatBody_ok (labels : List (Option Nat × String))
    (i : Instruction)
    (hname : i.type ≠ Format.INVALID → ∃ n, i.name = some n)
    (hfirst : i.type = Format.M2A ∨ i.type = Format.A2M ∨
      i.type = Format.LITERAL ∨ i.type = Format.ADDRESS ∨
      i.type = Format.MEMORY ∨ i.type = Format.BIT →
      ∃ f, i.first = some f)
    (hsecond : i.type = Format.BIT → ∃ b, i.second = some b)
    (hlab : i.type = Format.ADDRESS →
      (dictGet i.first labels).isSome = true) :
    ∃ s, formatBody labels true i = Except.ok s := by
  unfold formatBody
  cases hty : i.type with
  | SPECIAL =>
      obtain ⟨n, hn⟩ := hname (by rw [hty]; simp)
      rw [hn]
      exact ⟨n, rfl⟩
  | M2A =>
      obtain ⟨n, hn⟩ := hname (by rw [hty]; simp)
      obtain ⟨f, hf⟩ := hfirst (Or.inl hty)
      rw [hn, hf]
      exact ⟨_, rfl⟩
  | A2M =>
      obtain ⟨n, hn⟩ := hname (by rw [hty]; simp)
      obtain ⟨f, hf⟩ := hfirst (Or.inr (Or.inl hty))
      rw [hn, hf]
      exact ⟨_, rfl⟩
  | LITERAL =>
      obtain ⟨n, hn⟩ := hname (by rw [hty]; simp)
      obtain ⟨f, hf⟩ := hfirst (Or.inr (Or.inr (Or.inl hty)))
      rw [hn, hf]
      exact ⟨_, rfl⟩
  | ADDRESS =>
      obtain ⟨n, hn⟩ := hname (by rw [hty]; simp)
      obtain ⟨l, hl⟩ := Option.isSome_iff_exists.1 (hlab hty)
      rw [hn, hl]
      exact ⟨_, rfl⟩
  | BIT =>
      obtain ⟨n, hn⟩ := hname (by rw [hty]; simp)
      obtain ⟨f, hf⟩ := hfirst (Or.inr (Or.inr (Or.inr (Or.inr (Or.inr hty)))))
      obtain ⟨b, hb⟩ := hsecond hty
      rw [hn, hf, hb]
      exact ⟨_, rfl⟩
  | MEMORY =>
      obtain ⟨n, hn⟩ := hname (by rw [hty]; simp)
      obtain ⟨f, hf⟩ := hfirst (Or.inr (Or.inr (Or.inr (Or.inr (Or.inl hty)))))
      rw [hn, hf]
      exact ⟨_, rfl⟩
  | INVALID => exact ⟨_, rfl⟩

theorem formatInstruction_ok (labels : List (Option Nat × String))
    (address : Nat) (i : Instruction)
    (hbody : ∃ s, formatBody labels true i = Except.ok s) :
    ∃ s, formatInstruction labels true address i = Except.ok s := by
  obtain ⟨b, hb⟩ := hbody
  unfold formatInstruction
  rw [hb]
  exact ⟨_, rfl⟩

/-- C10: once labels are assigned, every Address-format instruction of the
decoded sequence has its target as a key of the label table, so the
formatter's unguarded label lookup succeeds, and formatting any decoded
instruction with labels enabled returns a string rather than an error. -/
theorem claim_C10_formatter_total (words : List Nat)
    (instructions : List Instruction)
    (hdec : decodeAll words = Except.ok instructions) :
    (∀ i ∈ instructions, i.type = Format.ADDRESS →
      (dictGet i.first (assignLabels instructions)).isSome = true) ∧
    ∀ address, ∀ i ∈ instructions,
      ∃ s, formatInstruction (assignLabels instructions) true address i =
        Except.ok s := by
  have hkey : ∀ i ∈ instructions, i.type = Format.ADDRESS →
      (dictGet i.first (assignLabels instructions)).isSome = true := by
    intro i hi hty
    exact (assignLabels_isSome_iff _ _).2
      ((mem_addressTargets _ _).2 ⟨i, hi, hty, rfl⟩)
  refine ⟨hkey, ?_⟩
  intro address i hi
  obtain ⟨a, w, hw⟩ := decodeAllAux_mem words 0 instructions hdec i hi
  obtain ⟨hname, hfirst, hsecond⟩ := decodeWord_wf a w i hw
  exact formatInstruction_ok _ address i
    (formatBody_ok _ i hname hfirst hsecond (hkey i hi))

theorem claim_C10_formatter_total_witness :
    ∃ s, formatInstruction
        (assignLabels
          [{ address := 0, word := 0, name := some "NOP",
             type := Format.SPECIAL, first := none, second := none },
           { address := 1, word := 0x2000, name := some "CALL",
             type := Format.ADDRESS, first := some 0, second := none }])
        true 1
        { address := 1, word := 0x2000, name := some "CALL",
          type := Format.ADDRESS, first := some 0, second := none } =
      Except.ok s :=
  (claim_C10_formatter_total [0x0000, 0x2000]
      [{ address := 0, word := 0, name := some "NOP",
         type := Format.SPECIAL, first := none, second := none },
       { address := 1, word := 0x2000, name := some "CALL",
         type := Format.ADDRESS, first := some 0, second := none }]
      rfl).2 1
    { address := 1, word := 0x2000, name := some "CALL",
      type := Format.ADDRESS, first := some 0, second := none }
    (by simp)

end Bs83bdis
